import Mathlib

/-!
Verification of the rope-physics core of `script.js`: Verlet-integrated dots,
stick distance constraints, and rope creation, shallowly embedded over `ℚ`.

`Math.sqrt` has no exact rational counterpart, so every function that the
source feeds a computed Euclidean distance (`Dot.update`, `Stick.update`)
takes that distance as an extra argument; the theorems characterise it by the
hypotheses `0 ≤ d` and `d * d = <squared distance>`, which pin it down as the
unique nonnegative square root, exactly what `Math.sqrt` returns.

A second, minimal model over `JSNum` (rationals extended with the IEEE-754
special values Infinity, -Infinity and NaN, exact arithmetic otherwise)
captures the division-by-zero and NaN-propagation behaviour of JavaScript
numbers, which `ℚ` cannot express; it is used for the degenerate
zero-distance stick cases.
-/

namespace Ropes

/-- 2D vector, from the source's `Vector(x, y)` (only the `x`/`y` data and the
operations the physics core uses are needed). -/
@[ext]
structure Vec where
  x : ℚ
  y : ℚ
deriving DecidableEq

instance : Add Vec := ⟨fun a b => ⟨a.x + b.x, a.y + b.y⟩⟩
instance : Sub Vec := ⟨fun a b => ⟨a.x - b.x, a.y - b.y⟩⟩
instance : Neg Vec := ⟨fun a => ⟨-a.x, -a.y⟩⟩
instance : SMul ℚ Vec := ⟨fun q a => ⟨q * a.x, q * a.y⟩⟩

@[simp] theorem Vec.add_x (a b : Vec) : (a + b).x = a.x + b.x := rfl
@[simp] theorem Vec.add_y (a b : Vec) : (a + b).y = a.y + b.y := rfl
@[simp] theorem Vec.sub_x (a b : Vec) : (a - b).x = a.x - b.x := rfl
@[simp] theorem Vec.sub_y (a b : Vec) : (a - b).y = a.y - b.y := rfl
@[simp] theorem Vec.neg_x (a : Vec) : (-a).x = -a.x := rfl
@[simp] theorem Vec.neg_y (a : Vec) : (-a).y = -a.y := rfl
@[simp] theorem Vec.smul_x (q : ℚ) (a : Vec) : (q • a).x = q * a.x := rfl
@[simp] theorem Vec.smul_y (q : ℚ) (a : Vec) : (q • a).y = q * a.y := rfl

/-- Squared Euclidean distance `dx*dx + dy*dy` between two position vectors
(the quantity under the `Math.sqrt` calls of the source). -/
def dist2 (a b : Vec) : ℚ :=
  (a.x - b.x) * (a.x - b.x) + (a.y - b.y) * (a.y - b.y)

/-- The pointer state, from the source's `Mouse`: a position and an influence
radius (`this.radius = 40`). -/
structure Mouse where
  pos : Vec
  radius : ℚ
deriving DecidableEq

/-- `new Mouse(canvas)` before any pointer event: sentinel position
`(-1000, -1000)`, radius `40`. -/
def mkMouse : Mouse := ⟨⟨-1000, -1000⟩, 40⟩

/-- A point mass, from the source's `Dot` (the unused random `id` and the
rendering-only sprite fields are omitted; `distMouse` is kept because
`Dot.update` writes it). -/
structure Dot where
  pos : Vec
  oldPos : Vec
  radius : ℚ
  friction : ℚ
  gravity : Vec
  mass : ℚ
  pinned : Bool
  distMouse : ℚ
deriving DecidableEq

/-- `new Dot(x, y)`: position and previous position both `(x, y)`, radius 1,
friction 0.97, gravity `(0, 0.6)`, mass 1, unpinned, `distMouse = 1000`. -/
def mkDot (x y : ℚ) : Dot :=
  { pos := ⟨x, y⟩, oldPos := ⟨x, y⟩, radius := 1, friction := 0.97,
    gravity := ⟨0, 0.6⟩, mass := 1, pinned := false, distMouse := 1000 }

/-- The Verlet integration stage of `Dot.update` (source lines 39-44):
`vel = pos - oldPos; vel *= friction; oldPos = pos; vel += gravity;
pos += vel`. -/
def Dot.integrate (d : Dot) : Dot :=
  let vel := d.friction • (d.pos - d.oldPos) + d.gravity
  { d with pos := d.pos + vel, oldPos := d.pos }

/-- The pointer-interaction stage of `Dot.update` (source lines 46-60),
applied to the already-integrated dot; `dist` models
`Math.sqrt(dx*dx + dy*dy)` for `(dx, dy) = pos - mouse.pos`. -/
def Dot.interact (d : Dot) (m : Mouse) (dist : ℚ) : Dot :=
  let dx := d.pos.x - m.pos.x
  let dy := d.pos.y - m.pos.y
  let d1 : Dot := { d with distMouse := dist }
  if m.radius + d.radius < dist then d1
  else
    let direction : Vec := ⟨dx / dist, dy / dist⟩
    let force0 := (m.radius - dist) / m.radius
    let force := if force0 < 0 then 0 else force0
    if force < 0.6 then
      { d1 with pos := d1.pos - (force * 0.0001) • direction }
    else
      { d1 with pos := m.pos }

/-- `Dot.update(mouse)`: no-op when pinned, otherwise Verlet integration
followed by the pointer interaction; `dist` models the
`Math.sqrt(dx*dx + dy*dy)` the source computes from the post-integration
position. -/
def Dot.update (d : Dot) (m : Mouse) (dist : ℚ) : Dot :=
  if d.pinned then d else Dot.interact (Dot.integrate d) m dist

/-- A distance constraint, from the source's `Stick`: two endpoint dots (held
by value in this embedding), the rest length fixed at construction, and
`tension = 1`. -/
structure Stick where
  startPoint : Dot
  endPoint : Dot
  tension : ℚ
  length : ℚ
deriving DecidableEq

/-- Squared current distance of a stick's endpoints, oriented as the source's
`dx = endPoint.pos.x - startPoint.pos.x`. -/
def Stick.dist2 (s : Stick) : ℚ :=
  Ropes.dist2 s.endPoint.pos s.startPoint.pos

/-- `Stick.update()` (source lines 94-116); `dist` models
`Math.sqrt(dx*dx + dy*dy)`.  The correction `offset = delta * diff * 0.5` is
split by the opposite endpoint's mass share, and a pinned endpoint is not
moved. -/
def Stick.update (s : Stick) (dist : ℚ) : Stick :=
  let dx := s.endPoint.pos.x - s.startPoint.pos.x
  let dy := s.endPoint.pos.y - s.startPoint.pos.y
  let diff := ((s.length - dist) / dist) * s.tension
  let offsetX := dx * diff * 0.5
  let offsetY := dy * diff * 0.5
  let m := s.endPoint.mass + s.startPoint.mass
  let m1 := s.endPoint.mass / m
  let m2 := s.startPoint.mass / m
  let sp :=
    if s.startPoint.pinned then s.startPoint
    else { s.startPoint with
            pos := ⟨s.startPoint.pos.x - offsetX * m1,
                    s.startPoint.pos.y - offsetY * m1⟩ }
  let ep :=
    if s.endPoint.pinned then s.endPoint
    else { s.endPoint with
            pos := ⟨s.endPoint.pos.x + offsetX * m2,
                    s.endPoint.pos.y + offsetY * m2⟩ }
  { s with startPoint := sp, endPoint := ep }

/-- Set `pinned := true` on the dot at the given index
(`this.dots[index].pinned = true`). -/
def pinAt : List Dot → ℕ → List Dot
  | [], _ => []
  | d :: rest, 0 => { d with pinned := true } :: rest
  | d :: rest, n + 1 => d :: pinAt rest n

/-- A rope, from the source's `Rope`.  Sticks reference their endpoint dots by
index into `dots` (the JS objects are shared references; only the index pairs
matter for the claims below). -/
structure Rope where
  x : ℚ
  y : ℚ
  segments : ℕ
  gap : ℚ
  dots : List Dot
  sticks : List (ℕ × ℕ)

/-- `new Rope(config)` followed by `create()`: `segments` dots at
`(x, y + i*gap)` and `segments - 1` sticks chaining consecutive dots. -/
def mkRope (x y gap : ℚ) (segments : ℕ) : Rope :=
  { x := x, y := y, segments := segments, gap := gap,
    dots := (List.range segments).map (fun i => mkDot x (y + i * gap)),
    sticks := (List.range (segments - 1)).map (fun i => (i, i + 1)) }

/-- `Rope.pin(index)`. -/
def Rope.pin (r : Rope) (index : ℕ) : Rope :=
  { r with dots := pinAt r.dots index }

/-- The loop of `App.createRopes`: `for (let i = 0; i < TOTAL + 1; i++)`,
collecting one rope per iteration (`mk i` is the rope built in iteration
`i`, absorbing the random draws). -/
def ropeLoop (total : ℚ) (mk : ℕ → Rope) (i : ℕ) : List Rope :=
  if h : (i : ℚ) < total + 1 then mk i :: ropeLoop total mk (i + 1) else []
termination_by (⌈total + 1⌉ - i).toNat
decreasing_by
  have hi : (i : ℤ) < ⌈total + 1⌉ := by
    rw [Int.lt_ceil]
    exact_mod_cast h
  omega

/-- `App.createRopes()` for viewport width `w`: `TOTAL = w * 0.06`, and each
iteration builds `new Rope({x: xs i, y: 0, gap: gaps i, segments: 10})` and
pins its dot 0 (`xs`/`gaps` stand for the uniform random draws, which the
claims do not constrain). -/
def createRopes (w : ℚ) (xs gaps : ℕ → ℚ) : List Rope :=
  ropeLoop (w * 0.06) (fun i => (mkRope (xs i) 0 (gaps i) 10).pin 0) 0

/-! ## JavaScript number model

`JSNum` extends `ℚ` with the IEEE-754 special values.  Arithmetic on ordinary
values is exact rational arithmetic (rounding is not modelled, and neither is
negative zero — no input used below produces one); the special values follow
the IEEE rules JavaScript uses: `x/0 = ±Infinity` for `x ≠ 0`, `0/0 = NaN`,
`0 * Infinity = NaN`, NaN propagates through every operation, and every
comparison with NaN is false. -/

inductive JSNum where
  | num (q : ℚ)
  | inf
  | ninf
  | nan
deriving DecidableEq

namespace JSNum

def add : JSNum → JSNum → JSNum
  | nan, _ => nan
  | _, nan => nan
  | inf, ninf => nan
  | ninf, inf => nan
  | inf, _ => inf
  | _, inf => inf
  | ninf, _ => ninf
  | _, ninf => ninf
  | num a, num b => num (a + b)

def sub : JSNum → JSNum → JSNum
  | nan, _ => nan
  | _, nan => nan
  | inf, inf => nan
  | ninf, ninf => nan
  | inf, _ => inf
  | _, inf => ninf
  | ninf, _ => ninf
  | _, ninf => inf
  | num a, num b => num (a - b)

def mul : JSNum → JSNum → JSNum
  | nan, _ => nan
  | _, nan => nan
  | inf, inf => inf
  | inf, ninf => ninf
  | ninf, inf => ninf
  | ninf, ninf => inf
  | inf, num b => if b = 0 then nan else if 0 < b then inf else ninf
  | num a, inf => if a = 0 then nan else if 0 < a then inf else ninf
  | ninf, num b => if b = 0 then nan else if 0 < b then ninf else inf
  | num a, ninf => if a = 0 then nan else if 0 < a then ninf else inf
  | num a, num b => num (a * b)

def div : JSNum → JSNum → JSNum
  | nan, _ => nan
  | _, nan => nan
  | inf, inf => nan
  | inf, ninf => nan
  | ninf, inf => nan
  | ninf, ninf => nan
  | inf, num b => if 0 ≤ b then inf else ninf
  | ninf, num b => if 0 ≤ b then ninf else inf
  | num _, inf => num 0
  | num _, ninf => num 0
  | num a, num b =>
      if b = 0 then (if a = 0 then nan else if 0 < a then inf else ninf)
      else num (a / b)

/-- JavaScript `<` (false whenever either side is NaN). -/
def lt : JSNum → JSNum → Bool
  | nan, _ => false
  | _, nan => false
  | inf, _ => false
  | _, inf => true
  | ninf, ninf => false
  | ninf, _ => true
  | _, ninf => false
  | num a, num b => decide (a < b)

/-- JavaScript `Math.abs`. -/
def abs : JSNum → JSNum
  | nan => nan
  | inf => inf
  | ninf => inf
  | num a => num |a|

/-- `isSqrtOf x r` holds when `Math.sqrt(x) = r`: the nonnegative exact root
for a nonnegative ordinary value, NaN for a negative one, with
`sqrt(Infinity) = Infinity` and NaN propagation. -/
def isSqrtOf : JSNum → JSNum → Bool
  | num q, num r => decide (0 ≤ q ∧ 0 ≤ r ∧ r * r = q)
  | num q, nan => decide (q < 0)
  | inf, inf => true
  | ninf, nan => true
  | nan, nan => true
  | _, _ => false

end JSNum

/-- A dot as seen by `Stick.update`, over `JSNum` coordinates. -/
structure DotJ where
  posx : JSNum
  posy : JSNum
  mass : JSNum
  pinned : Bool
deriving DecidableEq

/-- A stick over `JSNum` numbers. -/
structure StickJ where
  startPoint : DotJ
  endPoint : DotJ
  tension : JSNum
  length : JSNum
deriving DecidableEq

/-- The `dx*dx + dy*dy` that `Stick.update` puts under `Math.sqrt`. -/
def StickJ.dist2 (s : StickJ) : JSNum :=
  let dx := JSNum.sub s.endPoint.posx s.startPoint.posx
  let dy := JSNum.sub s.endPoint.posy s.startPoint.posy
  JSNum.add (JSNum.mul dx dx) (JSNum.mul dy dy)

/-- `Stick.update()` over the `JSNum` model, literal translation of source
lines 94-116; `dist` models `Math.sqrt(dx*dx + dy*dy)`. -/
def StickJ.update (s : StickJ) (dist : JSNum) : StickJ :=
  let dx := JSNum.sub s.endPoint.posx s.startPoint.posx
  let dy := JSNum.sub s.endPoint.posy s.startPoint.posy
  let diff := JSNum.mul (JSNum.div (JSNum.sub s.length dist) dist) s.tension
  let offsetX := JSNum.mul (JSNum.mul dx diff) (JSNum.num 0.5)
  let offsetY := JSNum.mul (JSNum.mul dy diff) (JSNum.num 0.5)
  let m := JSNum.add s.endPoint.mass s.startPoint.mass
  let m1 := JSNum.div s.endPoint.mass m
  let m2 := JSNum.div s.startPoint.mass m
  let sp :=
    if s.startPoint.pinned then s.startPoint
    else { s.startPoint with
            posx := JSNum.sub s.startPoint.posx (JSNum.mul offsetX m1),
            posy := JSNum.sub s.startPoint.posy (JSNum.mul offsetY m1) }
  let ep :=
    if s.endPoint.pinned then s.endPoint
    else { s.endPoint with
            posx := JSNum.add s.endPoint.posx (JSNum.mul offsetX m2),
            posy := JSNum.add s.endPoint.posy (JSNum.mul offsetY m2) }
  { s with startPoint := sp, endPoint := ep }

@[simp] theorem Vec.zero_smul (a : Vec) : (0 : ℚ) • a = (⟨0, 0⟩ : Vec) := by
  ext <;> simp

@[simp] theorem Vec.sub_zero_vec (a : Vec) : a - (⟨0, 0⟩ : Vec) = a := by
  ext <;> simp

/-! ## Claims -/

/-- C1: for an unpinned dot, one `Dot.update` is the Verlet step followed by
the pointer interaction, and the integration stage satisfies
`pos' = pos + friction*(pos - oldPos) + gravity` and `oldPos' = pos`. -/
theorem claim_C1_verlet_step (d : Dot) (m : Mouse) (dist : ℚ)
    (hp : d.pinned = false) :
    Dot.update d m dist = Dot.interact (Dot.integrate d) m dist ∧
    (Dot.integrate d).pos = d.pos + d.friction • (d.pos - d.oldPos) + d.gravity ∧
    (Dot.integrate d).oldPos = d.pos := by
  refine ⟨by simp [Dot.update, hp], ?_, rfl⟩
  show d.pos + (d.friction • (d.pos - d.oldPos) + d.gravity) = _
  ext <;> simp <;> ring

theorem claim_C1_verlet_step_witness :
    Dot.update (mkDot 3 4) mkMouse 5
      = Dot.interact (Dot.integrate (mkDot 3 4)) mkMouse 5 ∧
    (Dot.integrate (mkDot 3 4)).pos
      = (mkDot 3 4).pos
        + (mkDot 3 4).friction • ((mkDot 3 4).pos - (mkDot 3 4).oldPos)
        + (mkDot 3 4).gravity ∧
    (Dot.integrate (mkDot 3 4)).oldPos = (mkDot 3 4).pos :=
  claim_C1_verlet_step (mkDot 3 4) mkMouse 5 rfl

/-- C2: a pinned dot is left entirely unchanged by `Dot.update`, and
`Stick.update` never moves a pinned endpoint. -/
theorem claim_C2_pinned_invariant (d : Dot) (m : Mouse) (dist : ℚ)
    (s1 s2 : Stick) (e1 e2 : ℚ)
    (hd : d.pinned = true)
    (hs : s1.startPoint.pinned = true)
    (he : s2.endPoint.pinned = true) :
    Dot.update d m dist = d ∧
    (Stick.update s1 e1).startPoint = s1.startPoint ∧
    (Stick.update s2 e2).endPoint = s2.endPoint :=
  ⟨by simp [Dot.update, hd], by simp [Stick.update, hs], by simp [Stick.update, he]⟩

theorem claim_C2_pinned_invariant_witness :
    Dot.update { mkDot 1 2 with pinned := true } mkMouse 3
      = { mkDot 1 2 with pinned := true } ∧
    (Stick.update ⟨{ mkDot 1 2 with pinned := true },
                   { mkDot 4 6 with pinned := true }, 1, 5⟩ 5).startPoint
      = { mkDot 1 2 with pinned := true } ∧
    (Stick.update ⟨{ mkDot 1 2 with pinned := true },
                   { mkDot 4 6 with pinned := true }, 1, 5⟩ 5).endPoint
      = { mkDot 4 6 with pinned := true } :=
  claim_C2_pinned_invariant { mkDot 1 2 with pinned := true } mkMouse 3
    ⟨{ mkDot 1 2 with pinned := true }, { mkDot 4 6 with pinned := true }, 1, 5⟩
    ⟨{ mkDot 1 2 with pinned := true }, { mkDot 4 6 with pinned := true }, 1, 5⟩
    5 5 rfl rfl rfl

/-- C7: when the post-integration distance to the pointer exceeds
`mouse.radius + dot.radius`, `Dot.update` applies no pointer interaction:
position and previous position are exactly those of the pure Verlet
integration. -/
theorem claim_C7_far_pointer (d : Dot) (m : Mouse) (dist : ℚ)
    (hp : d.pinned = false)
    (h0 : 0 ≤ dist)
    (hch : dist * dist = dist2 (Dot.integrate d).pos m.pos)
    (hfar : m.radius + d.radius < dist) :
    (Dot.update d m dist).pos = (Dot.integrate d).pos ∧
    (Dot.update d m dist).oldPos = (Dot.integrate d).oldPos := by
  have hu : Dot.update d m dist = { Dot.integrate d with distMouse := dist } := by
    rw [Dot.update, if_neg (by simp [hp]), Dot.interact]
    simp only
    rw [if_pos (show m.radius + (Dot.integrate d).radius < dist from hfar)]
  rw [hu]
  exact ⟨rfl, rfl⟩

theorem claim_C7_far_pointer_witness :
    (Dot.update (mkDot 0 0) ⟨⟨0, -1000⟩, 40⟩ 1000.6).pos
      = (Dot.integrate (mkDot 0 0)).pos ∧
    (Dot.update (mkDot 0 0) ⟨⟨0, -1000⟩, 40⟩ 1000.6).oldPos
      = (Dot.integrate (mkDot 0 0)).oldPos :=
  claim_C7_far_pointer (mkDot 0 0) ⟨⟨0, -1000⟩, 40⟩ 1000.6 rfl
    (by norm_num) (by norm_num [dist2, Dot.integrate, mkDot]) (by norm_num [mkDot])

/-- C6: when the post-integration position coincides with the pointer
position (distance 0), `Dot.update` leaves the position at the integrated
value. -/
theorem claim_C6_zero_distance (d : Dot) (m : Mouse)
    (hp : d.pinned = false)
    (heq : (Dot.integrate d).pos = m.pos) :
    (Dot.update d m 0).pos = (Dot.integrate d).pos := by
  rw [Dot.update, if_neg (by simp [hp]), Dot.interact]
  simp only
  by_cases hg : m.radius + (Dot.integrate d).radius < (0 : ℚ)
  · rw [if_pos hg]
  · rw [if_neg hg]
    by_cases hr : m.radius = 0
    · have hf0 : (m.radius - 0) / m.radius = (0 : ℚ) := by simp [hr]
      rw [hf0]
      norm_num
    · have hf1 : (m.radius - 0) / m.radius = (1 : ℚ) := by
        rw [sub_zero, div_self hr]
      rw [hf1]
      norm_num [heq]

theorem claim_C6_zero_distance_witness :
    (Dot.update (mkDot 0 0) ⟨⟨0, 0.6⟩, 40⟩ 0).pos
      = (Dot.integrate (mkDot 0 0)).pos :=
  claim_C6_zero_distance (mkDot 0 0) ⟨⟨0, 0.6⟩, 40⟩ rfl (by
    ext <;> norm_num [Dot.integrate, mkDot])

/-- C5: when the post-integration distance `dist` to the pointer satisfies
`dist ≤ mouse.radius + dot.radius` and the force
`(mouse.radius - dist)/mouse.radius` is at least `0.6`, `Dot.update` snaps
the position exactly onto the pointer position. -/
theorem claim_C5_snap (d : Dot) (m : Mouse) (dist : ℚ)
    (hp : d.pinned = false)
    (hr : 0 < m.radius)
    (h0 : 0 ≤ dist)
    (hch : dist * dist = dist2 (Dot.integrate d).pos m.pos)
    (hnear : dist ≤ m.radius + d.radius)
    (hforce : 0.6 ≤ (m.radius - dist) / m.radius) :
    (Dot.update d m dist).pos = m.pos := by
  rw [Dot.update, if_neg (by simp [hp]), Dot.interact]
  simp only
  rw [if_neg (show ¬ m.radius + (Dot.integrate d).radius < dist from
        not_lt.mpr hnear)]
  rw [if_neg (show ¬ (m.radius - dist) / m.radius < 0 from
        not_lt.mpr (le_trans (by norm_num) hforce))]
  rw [if_neg (not_lt.mpr hforce)]

theorem claim_C5_snap_witness :
    (Dot.update (mkDot 0 0) ⟨⟨3, 4.6⟩, 40⟩ 5).pos = (⟨3, 4.6⟩ : Vec) :=
  claim_C5_snap (mkDot 0 0) ⟨⟨3, 4.6⟩, 40⟩ 5 rfl (by norm_num) (by norm_num)
    (by norm_num [dist2, Dot.integrate, mkDot]) (by norm_num [mkDot])
    (by norm_num)

/-- C8: for a stick with two unpinned endpoints of equal positive mass at
nonzero distance, one `Stick.update` moves the endpoints by opposite (hence
equal-magnitude) offsets along the connecting line. -/
theorem claim_C8_mass_symmetry (s : Stick) (e : ℚ)
    (hsp : s.startPoint.pinned = false)
    (hep : s.endPoint.pinned = false)
    (hm : s.startPoint.mass = s.endPoint.mass)
    (hmp : 0 < s.startPoint.mass)
    (h0 : 0 ≤ e)
    (hch : e * e = Stick.dist2 s)
    (hne : e ≠ 0) :
    (Stick.update s e).startPoint.pos - s.startPoint.pos
      = -((Stick.update s e).endPoint.pos - s.endPoint.pos) ∧
    ∃ k : ℚ, (Stick.update s e).endPoint.pos - s.endPoint.pos
      = k • (s.endPoint.pos - s.startPoint.pos) := by
  constructor
  · ext <;> simp [Stick.update, hsp, hep, hm] <;> ring
  · refine ⟨((s.length - e) / e) * s.tension * 0.5
      * (s.startPoint.mass / (s.endPoint.mass + s.startPoint.mass)), ?_⟩
    ext <;> simp [Stick.update, hsp, hep] <;> ring

theorem claim_C8_mass_symmetry_witness :
    (Stick.update ⟨mkDot 0 0, mkDot 3 4, 1, 5⟩ 5).startPoint.pos
        - (mkDot 0 0).pos
      = -((Stick.update ⟨mkDot 0 0, mkDot 3 4, 1, 5⟩ 5).endPoint.pos
        - (mkDot 3 4).pos) :=
  (claim_C8_mass_symmetry ⟨mkDot 0 0, mkDot 3 4, 1, 5⟩ 5 rfl rfl rfl
    (by norm_num [mkDot]) (by norm_num)
    (by norm_num [Stick.dist2, dist2, mkDot]) (by norm_num)).1

/-- C10: `Stick.update` writes only the endpoint positions: every other field
of the endpoints (previous position, radius, friction, gravity, mass, pinned
flag, `distMouse`) and of the stick itself (rest length, tension) is
unchanged. -/
theorem claim_C10_stick_frame (s : Stick) (e : ℚ) :
    (Stick.update s e).length = s.length ∧
    (Stick.update s e).tension = s.tension ∧
    (Stick.update s e).startPoint.oldPos = s.startPoint.oldPos ∧
    (Stick.update s e).startPoint.radius = s.startPoint.radius ∧
    (Stick.update s e).startPoint.friction = s.startPoint.friction ∧
    (Stick.update s e).startPoint.gravity = s.startPoint.gravity ∧
    (Stick.update s e).startPoint.mass = s.startPoint.mass ∧
    (Stick.update s e).startPoint.pinned = s.startPoint.pinned ∧
    (Stick.update s e).startPoint.distMouse = s.startPoint.distMouse ∧
    (Stick.update s e).endPoint.oldPos = s.endPoint.oldPos ∧
    (Stick.update s e).endPoint.radius = s.endPoint.radius ∧
    (Stick.update s e).endPoint.friction = s.endPoint.friction ∧
    (Stick.update s e).endPoint.gravity = s.endPoint.gravity ∧
    (Stick.update s e).endPoint.mass = s.endPoint.mass ∧
    (Stick.update s e).endPoint.pinned = s.endPoint.pinned ∧
    (Stick.update s e).endPoint.distMouse = s.endPoint.distMouse := by
  cases hs : s.startPoint.pinned <;> cases he : s.endPoint.pinned <;>
    simp [Stick.update, hs, he]

/-- The per-pass correction coefficient of a stick with exactly one pinned
endpoint: `0.5 * tension * (pinned endpoint's mass) / total mass` — the free
endpoint's movement share is the *other* (pinned) endpoint's mass fraction. -/
def stepC (s : Stick) : ℚ :=
  0.5 * s.tension *
    (if s.startPoint.pinned then s.startPoint.mass else s.endPoint.mass)
    / (s.endPoint.mass + s.startPoint.mass)

/-- Scalar core of the start-pinned constraint pass: moving only the free end
by its share of the correction scales the separation vector by
`(e + (L - e)*c)/e`, so the squared distance becomes `(e + (L - e)*c)²`. -/
lemma dist2_step_scalar_start (sx sy ex ey L t sm em e : ℚ)
    (hm : em + sm ≠ 0) (he : e ≠ 0)
    (hch : e * e = (ex - sx) * (ex - sx) + (ey - sy) * (ey - sy)) :
    (ex + (ex - sx) * (((L - e) / e) * t) * 0.5 * (sm / (em + sm)) - sx) *
        (ex + (ex - sx) * (((L - e) / e) * t) * 0.5 * (sm / (em + sm)) - sx) +
      (ey + (ey - sy) * (((L - e) / e) * t) * 0.5 * (sm / (em + sm)) - sy) *
        (ey + (ey - sy) * (((L - e) / e) * t) * 0.5 * (sm / (em + sm)) - sy)
      = (e + (L - e) * (0.5 * t * sm / (em + sm))) *
        (e + (L - e) * (0.5 * t * sm / (em + sm))) := by
  have hx : ex + (ex - sx) * (((L - e) / e) * t) * 0.5 * (sm / (em + sm)) - sx
      = (ex - sx) * (1 + (L - e) / e * t * 0.5 * (sm / (em + sm))) := by ring
  have hy : ey + (ey - sy) * (((L - e) / e) * t) * 0.5 * (sm / (em + sm)) - sy
      = (ey - sy) * (1 + (L - e) / e * t * 0.5 * (sm / (em + sm))) := by ring
  rw [hx, hy]
  have hKe : (1 + (L - e) / e * t * 0.5 * (sm / (em + sm))) * e
      = e + (L - e) * (0.5 * t * sm / (em + sm)) := by
    field_simp
    ring
  calc (ex - sx) * (1 + (L - e) / e * t * 0.5 * (sm / (em + sm))) *
          ((ex - sx) * (1 + (L - e) / e * t * 0.5 * (sm / (em + sm)))) +
        (ey - sy) * (1 + (L - e) / e * t * 0.5 * (sm / (em + sm))) *
          ((ey - sy) * (1 + (L - e) / e * t * 0.5 * (sm / (em + sm))))
      = ((ex - sx) * (ex - sx) + (ey - sy) * (ey - sy)) *
          ((1 + (L - e) / e * t * 0.5 * (sm / (em + sm))) *
           (1 + (L - e) / e * t * 0.5 * (sm / (em + sm)))) := by ring
    _ = (e * e) *
          ((1 + (L - e) / e * t * 0.5 * (sm / (em + sm))) *
           (1 + (L - e) / e * t * 0.5 * (sm / (em + sm)))) := by rw [← hch]
    _ = ((1 + (L - e) / e * t * 0.5 * (sm / (em + sm))) * e) *
          ((1 + (L - e) / e * t * 0.5 * (sm / (em + sm))) * e) := by ring
    _ = (e + (L - e) * (0.5 * t * sm / (em + sm))) *
        (e + (L - e) * (0.5 * t * sm / (em + sm))) := by rw [hKe]

/-- Scalar core of the end-pinned constraint pass (free start moves by its
`em/(em+sm)` share). -/
lemma dist2_step_scalar_end (sx sy ex ey L t sm em e : ℚ)
    (hm : em + sm ≠ 0) (he : e ≠ 0)
    (hch : e * e = (ex - sx) * (ex - sx) + (ey - sy) * (ey - sy)) :
    (ex - (sx - (ex - sx) * (((L - e) / e) * t) * 0.5 * (em / (em + sm)))) *
        (ex - (sx - (ex - sx) * (((L - e) / e) * t) * 0.5 * (em / (em + sm)))) +
      (ey - (sy - (ey - sy) * (((L - e) / e) * t) * 0.5 * (em / (em + sm)))) *
        (ey - (sy - (ey - sy) * (((L - e) / e) * t) * 0.5 * (em / (em + sm))))
      = (e + (L - e) * (0.5 * t * em / (em + sm))) *
        (e + (L - e) * (0.5 * t * em / (em + sm))) := by
  have hx : ex - (sx - (ex - sx) * (((L - e) / e) * t) * 0.5 * (em / (em + sm)))
      = (ex - sx) * (1 + (L - e) / e * t * 0.5 * (em / (em + sm))) := by ring
  have hy : ey - (sy - (ey - sy) * (((L - e) / e) * t) * 0.5 * (em / (em + sm)))
      = (ey - sy) * (1 + (L - e) / e * t * 0.5 * (em / (em + sm))) := by ring
  rw [hx, hy]
  have hKe : (1 + (L - e) / e * t * 0.5 * (em / (em + sm))) * e
      = e + (L - e) * (0.5 * t * em / (em + sm)) := by
    field_simp
    ring
  calc (ex - sx) * (1 + (L - e) / e * t * 0.5 * (em / (em + sm))) *
          ((ex - sx) * (1 + (L - e) / e * t * 0.5 * (em / (em + sm)))) +
        (ey - sy) * (1 + (L - e) / e * t * 0.5 * (em / (em + sm))) *
          ((ey - sy) * (1 + (L - e) / e * t * 0.5 * (em / (em + sm))))
      = ((ex - sx) * (ex - sx) + (ey - sy) * (ey - sy)) *
          ((1 + (L - e) / e * t * 0.5 * (em / (em + sm))) *
           (1 + (L - e) / e * t * 0.5 * (em / (em + sm)))) := by ring
    _ = (e * e) *
          ((1 + (L - e) / e * t * 0.5 * (em / (em + sm))) *
           (1 + (L - e) / e * t * 0.5 * (em / (em + sm)))) := by rw [← hch]
    _ = ((1 + (L - e) / e * t * 0.5 * (em / (em + sm))) * e) *
          ((1 + (L - e) / e * t * 0.5 * (em / (em + sm))) * e) := by ring
    _ = (e + (L - e) * (0.5 * t * em / (em + sm))) *
        (e + (L - e) * (0.5 * t * em / (em + sm))) := by rw [hKe]

/-- One constraint pass on a stick with exactly one pinned endpoint turns the
squared endpoint distance `e²` into `(e + (L - e)·stepC)²`. -/
lemma update_dist2_one_pinned (s : Stick) (e : ℚ)
    (hone : s.startPoint.pinned = true ∧ s.endPoint.pinned = false ∨
            s.startPoint.pinned = false ∧ s.endPoint.pinned = true)
    (he : e ≠ 0) (hm : s.endPoint.mass + s.startPoint.mass ≠ 0)
    (hch : e * e = Stick.dist2 s) :
    Stick.dist2 (Stick.update s e)
      = (e + (s.length - e) * stepC s) * (e + (s.length - e) * stepC s) := by
  obtain ⟨h1, h2⟩ | ⟨h1, h2⟩ := hone
  · simp only [Stick.update, stepC, h1, h2, eq_self_iff_true, if_true,
      Bool.false_eq_true, if_false]
    exact dist2_step_scalar_start s.startPoint.pos.x s.startPoint.pos.y
      s.endPoint.pos.x s.endPoint.pos.y s.length s.tension
      s.startPoint.mass s.endPoint.mass e hm he hch
  · simp only [Stick.update, stepC, h1, h2, eq_self_iff_true, if_true,
      Bool.false_eq_true, if_false]
    exact dist2_step_scalar_end s.startPoint.pos.x s.startPoint.pos.y
      s.endPoint.pos.x s.endPoint.pos.y s.length s.tension
      s.startPoint.mass s.endPoint.mass e hm he hch

lemma stepC_pos (s : Stick)
    (hm1 : 0 < s.startPoint.mass) (hm2 : 0 < s.endPoint.mass)
    (ht0 : 0 < s.tension) : 0 < stepC s := by
  rw [stepC]
  have : (0 : ℚ) < (if s.startPoint.pinned then s.startPoint.mass
      else s.endPoint.mass) := by
    split <;> assumption
  positivity

lemma stepC_lt_one (s : Stick)
    (hm1 : 0 < s.startPoint.mass) (hm2 : 0 < s.endPoint.mass)
    (ht0 : 0 < s.tension) (ht1 : s.tension ≤ 1) : stepC s < 1 := by
  rw [stepC, div_lt_one (by positivity)]
  have hle : (if s.startPoint.pinned then s.startPoint.mass
      else s.endPoint.mass) ≤ s.endPoint.mass + s.startPoint.mass := by
    split <;> linarith
  have hpos : (0 : ℚ) < (if s.startPoint.pinned then s.startPoint.mass
      else s.endPoint.mass) := by
    split <;> assumption
  nlinarith

/-- `Stick.update` does not change any field other than the endpoint
positions. -/
lemma stickUpdate_frame (s : Stick) (e : ℚ) :
    (Stick.update s e).length = s.length ∧
    (Stick.update s e).tension = s.tension ∧
    (Stick.update s e).startPoint.mass = s.startPoint.mass ∧
    (Stick.update s e).endPoint.mass = s.endPoint.mass ∧
    (Stick.update s e).startPoint.pinned = s.startPoint.pinned ∧
    (Stick.update s e).endPoint.pinned = s.endPoint.pinned := by
  cases hs : s.startPoint.pinned <;> cases hendp : s.endPoint.pinned <;>
    simp [Stick.update, hs, hendp]

lemma stepC_update (s : Stick) (e : ℚ) : stepC (Stick.update s e) = stepC s := by
  obtain ⟨-, h2, h3, h4, h5, -⟩ := stickUpdate_frame s e
  rw [stepC, stepC, h2, h3, h4, h5]

/-- Iterates `Stick.update`, feeding as each call's distance argument the
value `e + (L - e)·stepC`; the C4 theorem proves this fed value equal, at
every step, to the true Euclidean distance (the nonnegative root of the
squared endpoint distance), so the sequence is exactly what repeated
`Stick.update` calls with `Math.sqrt` produce. -/
def stickIter (s : Stick) (d : ℚ) : ℕ → Stick × ℚ
  | 0 => (s, d)
  | n + 1 =>
      let p := stickIter s d n
      (Stick.update p.1 p.2, p.2 + (p.1.length - p.2) * stepC p.1)

/-- C4 (amended): for a stick with exactly one pinned endpoint, positive
masses, tension in `(0, 1]`, nonnegative rest length, and current distance
positive and different from the rest length, each `Stick.update` multiplies
the error `dist − restLength` by the fixed factor `1 − stepC ∈ (0, 1)`:
every step strictly decreases `|dist − restLength|`, the error never changes
sign (no overshoot), and the iterates converge geometrically to the rest
length.  The second conjunct certifies that the distance fed to each
`Stick.update` call is the true one. -/
theorem claim_C4_amended_convergence (s : Stick) (d : ℚ)
    (hone : s.startPoint.pinned = true ∧ s.endPoint.pinned = false ∨
            s.startPoint.pinned = false ∧ s.endPoint.pinned = true)
    (hm1 : 0 < s.startPoint.mass) (hm2 : 0 < s.endPoint.mass)
    (ht0 : 0 < s.tension) (ht1 : s.tension ≤ 1)
    (hL : 0 ≤ s.length)
    (hd : 0 < d) (hch : d * d = Stick.dist2 s) (hne : d ≠ s.length) :
    ∀ n : ℕ,
      0 < (stickIter s d n).2 ∧
      (stickIter s d n).2 * (stickIter s d n).2
        = Stick.dist2 (stickIter s d n).1 ∧
      (stickIter s d n).2 - s.length = (1 - stepC s) ^ n * (d - s.length) ∧
      |(stickIter s d (n + 1)).2 - s.length|
        < |(stickIter s d n).2 - s.length| ∧
      0 < ((stickIter s d n).2 - s.length) * (d - s.length) := by
  have hc0 : 0 < stepC s := stepC_pos s hm1 hm2 ht0
  have hc1 : stepC s < 1 := stepC_lt_one s hm1 hm2 ht0 ht1
  have main : ∀ n : ℕ,
      ((stickIter s d n).1.startPoint.pinned = s.startPoint.pinned ∧
       (stickIter s d n).1.endPoint.pinned = s.endPoint.pinned ∧
       (stickIter s d n).1.startPoint.mass = s.startPoint.mass ∧
       (stickIter s d n).1.endPoint.mass = s.endPoint.mass ∧
       (stickIter s d n).1.tension = s.tension ∧
       (stickIter s d n).1.length = s.length) ∧
      0 < (stickIter s d n).2 ∧
      (stickIter s d n).2 * (stickIter s d n).2
        = Stick.dist2 (stickIter s d n).1 ∧
      (stickIter s d n).2 - s.length = (1 - stepC s) ^ n * (d - s.length) := by
    intro n
    induction n with
    | zero =>
        exact ⟨⟨rfl, rfl, rfl, rfl, rfl, rfl⟩, hd, hch, by simp [stickIter]⟩
    | succ n ih =>
        obtain ⟨⟨f1, f2, f3, f4, f5, f6⟩, hpos, hcn, herr⟩ := ih
        have hstep : stepC (stickIter s d n).1 = stepC s := by
          rw [stepC, stepC, f1, f3, f4, f5]
        have hmsum : (stickIter s d n).1.endPoint.mass
            + (stickIter s d n).1.startPoint.mass ≠ 0 := by
          rw [f3, f4]; positivity
        have hone' : (stickIter s d n).1.startPoint.pinned = true ∧
            (stickIter s d n).1.endPoint.pinned = false ∨
            (stickIter s d n).1.startPoint.pinned = false ∧
            (stickIter s d n).1.endPoint.pinned = true := by
          rw [f1, f2]; exact hone
        have hens : (stickIter s d n).2 ≠ 0 := ne_of_gt hpos
        have hiter1 : (stickIter s d (n + 1)).1
            = Stick.update (stickIter s d n).1 (stickIter s d n).2 := rfl
        have hiter2 : (stickIter s d (n + 1)).2
            = (stickIter s d n).2
              + ((stickIter s d n).1.length - (stickIter s d n).2)
                * stepC (stickIter s d n).1 := rfl
        have hd2 : Stick.dist2 (stickIter s d (n + 1)).1
            = (stickIter s d (n + 1)).2 * (stickIter s d (n + 1)).2 := by
          rw [hiter1, hiter2,
            update_dist2_one_pinned _ _ hone' hens hmsum hcn]
        obtain ⟨g1, g2, g3, g4, g5, g6⟩ :=
          stickUpdate_frame (stickIter s d n).1 (stickIter s d n).2
        have hnew : (stickIter s d (n + 1)).2
            = (stickIter s d n).2
              + (s.length - (stickIter s d n).2) * stepC s := by
          rw [hiter2, f6, hstep]
        have hpos' : 0 < (stickIter s d (n + 1)).2 := by
          rw [hnew]
          nlinarith
        refine ⟨⟨?_, ?_, ?_, ?_, ?_, ?_⟩, hpos', hd2.symm, ?_⟩
        · rw [hiter1, g5, f1]
        · rw [hiter1, g6, f2]
        · rw [hiter1, g3, f3]
        · rw [hiter1, g4, f4]
        · rw [hiter1, g2, f5]
        · rw [hiter1, g1, f6]
        · rw [hnew, pow_succ]
          have : (stickIter s d n).2 + (s.length - (stickIter s d n).2)
              * stepC s - s.length
              = ((stickIter s d n).2 - s.length) * (1 - stepC s) := by ring
          rw [this, herr]
          ring
  intro n
  obtain ⟨-, hpos, hcn, herr⟩ := main n
  obtain ⟨-, -, -, herr'⟩ := main (n + 1)
  have hdl : d - s.length ≠ 0 := sub_ne_zero.mpr hne
  have habs : |d - s.length| > 0 := abs_pos.mpr hdl
  have h1c : 0 < 1 - stepC s := by linarith
  refine ⟨hpos, hcn, herr, ?_, ?_⟩
  · rw [herr, herr', abs_mul, abs_mul, abs_pow, abs_pow,
      abs_of_pos h1c]
    exact mul_lt_mul_of_pos_right
      (pow_lt_pow_right_of_lt_one₀ h1c (by linarith) (Nat.lt_succ_self n))
      habs
  · rw [herr, mul_assoc]
    exact mul_pos (pow_pos h1c n) (mul_self_pos.mpr hdl)

/-- A concrete stick with pinned start `(0,0)` and free end `(3,4)` (true
distance 5), rest length 10. -/
def c4stick : Stick :=
  ⟨{ mkDot 0 0 with pinned := true }, mkDot 3 4, 1, 10⟩

theorem claim_C4_amended_convergence_witness :
    0 < (stickIter c4stick 5 1).2 ∧
    (stickIter c4stick 5 1).2 * (stickIter c4stick 5 1).2
      = Stick.dist2 (stickIter c4stick 5 1).1 ∧
    (stickIter c4stick 5 1).2 - c4stick.length
      = (1 - stepC c4stick) ^ 1 * (5 - c4stick.length) ∧
    |(stickIter c4stick 5 (1 + 1)).2 - c4stick.length|
      < |(stickIter c4stick 5 1).2 - c4stick.length| ∧
    0 < ((stickIter c4stick 5 1).2 - c4stick.length) * (5 - c4stick.length) :=
  claim_C4_amended_convergence c4stick 5 (Or.inl ⟨rfl, rfl⟩)
    (by norm_num [c4stick, mkDot]) (by norm_num [c4stick, mkDot])
    (by norm_num [c4stick]) (by norm_num [c4stick])
    (by norm_num [c4stick]) (by norm_num)
    (by norm_num [c4stick, Stick.dist2, dist2, mkDot]) (by norm_num [c4stick])
    1

/-- A stick with one pinned endpoint whose endpoints coincide (distance 0)
while the rest length is 10, over the JavaScript number model. -/
def c4stickJ : StickJ :=
  ⟨⟨JSNum.num 0, JSNum.num 0, JSNum.num 1, true⟩,
   ⟨JSNum.num 0, JSNum.num 0, JSNum.num 1, false⟩,
   JSNum.num 1, JSNum.num 10⟩

/-- C4 counterexample: at current distance 0 (allowed by the claim, since
`0 ≠ restLength`), `Stick.update` computes `diff = (10 - 0)/0 = Infinity`,
`offset = 0 * Infinity * 0.5 = NaN`, and writes NaN into the free endpoint;
the new distance is NaN and the claimed strict decrease
`|dist' - restLength| < |dist - restLength|` is false (NaN comparisons are
false in JavaScript). -/
theorem claim_C4_zero_distance_counterexample :
    JSNum.isSqrtOf (StickJ.dist2 c4stickJ) (JSNum.num 0) = true ∧
    JSNum.num 0 ≠ c4stickJ.length ∧
    (StickJ.update c4stickJ (JSNum.num 0)).endPoint.posx = JSNum.nan ∧
    (StickJ.update c4stickJ (JSNum.num 0)).endPoint.posy = JSNum.nan ∧
    JSNum.isSqrtOf (StickJ.dist2 (StickJ.update c4stickJ (JSNum.num 0)))
      JSNum.nan = true ∧
    JSNum.lt (JSNum.abs (JSNum.sub JSNum.nan c4stickJ.length))
      (JSNum.abs (JSNum.sub (JSNum.num 0) c4stickJ.length)) = false := by
  refine ⟨?_, ?_, ?_, ?_, ?_, ?_⟩ <;>
    norm_num [c4stickJ, StickJ.update, StickJ.dist2, JSNum.isSqrtOf,
      JSNum.add, JSNum.sub, JSNum.mul, JSNum.div, JSNum.lt, JSNum.abs]

/-- A stick whose two (unpinned) endpoints coincide at `(0,0)`, with rest
length 10, over the JavaScript number model. -/
def c3stickJ : StickJ :=
  ⟨⟨JSNum.num 0, JSNum.num 0, JSNum.num 1, false⟩,
   ⟨JSNum.num 0, JSNum.num 0, JSNum.num 1, false⟩,
   JSNum.num 1, JSNum.num 10⟩

/-- C3: the source has no zero-distance guard.  With both endpoints at the
same position, `dist = 0`, `diff = (10 - 0)/0 = Infinity`,
`offset = 0 * Infinity * 0.5 = NaN`, and `Stick.update` writes NaN into all
four coordinates of the two (unpinned) endpoints — not a defined no-op. -/
theorem claim_C3_zero_distance_nan :
    JSNum.isSqrtOf (StickJ.dist2 c3stickJ) (JSNum.num 0) = true ∧
    (StickJ.update c3stickJ (JSNum.num 0)).startPoint.posx = JSNum.nan ∧
    (StickJ.update c3stickJ (JSNum.num 0)).startPoint.posy = JSNum.nan ∧
    (StickJ.update c3stickJ (JSNum.num 0)).endPoint.posx = JSNum.nan ∧
    (StickJ.update c3stickJ (JSNum.num 0)).endPoint.posy = JSNum.nan := by
  refine ⟨?_, ?_, ?_, ?_, ?_⟩ <;>
    norm_num [c3stickJ, StickJ.update, StickJ.dist2, JSNum.isSqrtOf,
      JSNum.add, JSNum.sub, JSNum.mul, JSNum.div]

theorem ropeLoop_length (total : ℚ) (mk : ℕ → Rope) (i : ℕ) :
    (ropeLoop total mk i).length = (⌈total + 1⌉ - i).toNat := by
  generalize hk : (⌈total + 1⌉ - (i : ℤ)).toNat = k
  induction k generalizing i with
  | zero =>
      have hge : ¬ (i : ℤ) < ⌈total + 1⌉ := by omega
      have hc : ¬ (i : ℚ) < total + 1 := by
        rw [show ((i : ℕ) : ℚ) = ((i : ℤ) : ℚ) by push_cast; ring,
          ← Int.lt_ceil]
        exact hge
      rw [ropeLoop, dif_neg hc, List.length_nil]
  | succ k ih =>
      have hlt : (i : ℤ) < ⌈total + 1⌉ := by omega
      have hc : (i : ℚ) < total + 1 := by
        rw [show ((i : ℕ) : ℚ) = ((i : ℤ) : ℚ) by push_cast; ring,
          ← Int.lt_ceil]
        exact hlt
      rw [ropeLoop, dif_pos hc, List.length_cons, ih (i + 1) (by push_cast; omega)]

theorem ropeLoop_mem (total : ℚ) (mk : ℕ → Rope) (i : ℕ) (r : Rope)
    (hr : r ∈ ropeLoop total mk i) : ∃ j, r = mk j := by
  generalize hk : (⌈total + 1⌉ - (i : ℤ)).toNat = k at hr
  induction k generalizing i with
  | zero =>
      have hge : ¬ (i : ℤ) < ⌈total + 1⌉ := by omega
      have hc : ¬ (i : ℚ) < total + 1 := by
        rw [show ((i : ℕ) : ℚ) = ((i : ℤ) : ℚ) by push_cast; ring,
          ← Int.lt_ceil]
        exact hge
      rw [ropeLoop, dif_neg hc] at hr
      simp at hr
  | succ k ih =>
      have hlt : (i : ℤ) < ⌈total + 1⌉ := by omega
      have hc : (i : ℚ) < total + 1 := by
        rw [show ((i : ℕ) : ℚ) = ((i : ℤ) : ℚ) by push_cast; ring,
          ← Int.lt_ceil]
        exact hlt
      rw [ropeLoop, dif_pos hc] at hr
      rcases List.mem_cons.mp hr with h | h
      · exact ⟨i, h⟩
      · exact ih (i + 1) h (by push_cast; omega)

/-- A ten-segment rope pinned at index 0 has a first dot and it is pinned. -/
lemma pin0_head (x g : ℚ) :
    ∃ d0 rest, ((mkRope x 0 g 10).pin 0).dots = d0 :: rest ∧
      d0.pinned = true := by
  refine ⟨_, _, rfl, rfl⟩

/-- C9 (amended): rope regeneration for viewport width `w ≥ 0` creates
exactly `⌈w * 0.06⌉ + 1` ropes — one more than the spec's
`⌊w * 0.06⌋ + 1` whenever `w * 0.06` is not an integer, because the loop
condition `i < TOTAL + 1` admits `i = ⌊TOTAL⌋ + 1` — and every created rope
has its dot 0 pinned. -/
theorem claim_C9_amended_count_pinned (w : ℚ) (xs gaps : ℕ → ℚ)
    (hw : 0 ≤ w) :
    ((createRopes w xs gaps).length : ℤ) = ⌈w * 0.06⌉ + 1 ∧
    ∀ r ∈ createRopes w xs gaps,
      ∃ d0 rest, r.dots = d0 :: rest ∧ d0.pinned = true := by
  constructor
  · rw [createRopes, ropeLoop_length]
    have h1 : (0 : ℤ) ≤ ⌈w * 0.06⌉ := Int.ceil_nonneg (by positivity)
    have h2 : ⌈w * 0.06 + 1⌉ = ⌈w * 0.06⌉ + 1 := Int.ceil_add_one (w * 0.06)
    rw [h2]
    push_cast
    omega
  · intro r hr
    obtain ⟨j, rfl⟩ := ropeLoop_mem _ _ _ r hr
    exact pin0_head (xs j) (gaps j)

theorem claim_C9_amended_count_pinned_witness :
    ((createRopes 110 (fun _ => 0) (fun _ => 1)).length : ℤ)
      = ⌈(110 : ℚ) * 0.06⌉ + 1 :=
  (claim_C9_amended_count_pinned 110 (fun _ => 0) (fun _ => 1)
    (by norm_num)).1

/-- C9 counterexample: at viewport width 110, `TOTAL = 110 * 0.06 = 6.6`,
and the loop `for (i = 0; i < TOTAL + 1; i++)` runs for `i = 0..7`, creating
8 ropes — not the claimed `⌊110 * 0.06⌋ + 1 = 7`. -/
theorem claim_C9_floor_count_counterexample :
    ((createRopes 110 (fun _ => 0) (fun _ => 1)).length : ℤ)
      ≠ ⌊(110 : ℚ) * 0.06⌋ + 1 := by
  rw [createRopes, ropeLoop_length]
  have hceil : ⌈(110 : ℚ) * 0.06 + 1⌉ = 8 := by
    rw [Int.ceil_eq_iff]
    norm_num
  have hfloor : ⌊(110 : ℚ) * 0.06⌋ = 6 := by
    rw [Int.floor_eq_iff]
    norm_num
  rw [hceil, hfloor]
  norm_num

end Ropes
